import Mathlib

/-!
Shallow embedding of the auction bidding and settlement engine of the
`auctioneer` repository (FastAPI + SQLModel).

Sources embedded here:
  * `app/models/auction_model.py` — `State`, `Auction`, `Bid`,
    `Auction.has_ended`, `Auction.get_highest_bid`;
  * `app/routers/auctions.py` — `start_auction`, `bid_on_auction`,
    `is_bid_too_low`, `calculate_min_required_bid`, `create_bid`,
    `process_finished_auctions`, `finish_auction`;
  * `app/models/product_model.py` — the `sold` flag of the linked product.

Modelling conventions:
  * `Decimal` (exact 2-dp fixed point) is modelled by `ℚ`: addition and
    order comparisons on 2-dp decimals are exactly those of `ℚ`.
  * `datetime` timestamps are modelled by `ℤ` (a point on a linear time
    axis); `timedelta` durations are `ℤ` as well.  `utils.get_current_timestamp`
    becomes an explicit `now : ℤ` argument.
  * Database rows become structures; the mutable session becomes explicit
    state passing: each operation returns the auction as committed.
  * Python truthiness on `Decimal` fields (`None` and `Decimal(0)` are both
    falsy) is modelled explicitly where the source relies on it.
  * Raising `HTTPException` becomes returning an explicit outcome
    constructor carrying the same diagnostic payload.
  * Email dispatch (`send_auction_email` → `aiosmtplib.send`) is an external
    effect; it is modelled by an oracle `emailOk : auction id → recipient id →
    Bool` saying whether a given send succeeds or raises.  The source wraps
    no send in `try`/`except`, so a raising send propagates; the models
    carry an explicit `raised` flag for that propagation.
-/

/-- `State` enum from `app/models/auction_model.py`: `setup`, `live`, `finished`. -/
inductive State where
  | setup
  | live
  | finished
deriving DecidableEq, Repr

/-- `Bid` table row (`app/models/auction_model.py`).  The surrogate `id`
primary key is database-assigned and irrelevant to every rule modelled here,
so it is elided; `amount`, `bidder_id`, `created_at`, `auction_id` are kept. -/
structure Bid where
  bidder_id : Nat
  amount : ℚ
  created_at : ℤ
  auction_id : Nat
deriving DecidableEq, Repr

/-- The slice of the `Product` row (`app/models/product_model.py`) the
auction engine touches: its identity and its `sold` flag. -/
structure Product where
  id : Nat
  sold : Bool
deriving DecidableEq, Repr

/-- `Auction` table row (`app/models/auction_model.py`).  The `bids`
relationship is the list of bids in insertion order (bids are only ever
appended by `create_bid`); the `product` relationship is inlined.  The
source declares `id` and `starting_price` as nullable with defaults, but the
bid path validates both non-null (`AuctionLive.model_validate`) before any
rule below runs, so they are total here.  `min_bid` and `instant_buy_price`
are genuinely optional and kept as `Option`. -/
structure Auction where
  id : Nat
  owner_id : Nat
  product_id : Nat
  buyer_id : Option Nat
  state : State
  start_time : Option ℤ
  end_time : Option ℤ
  starting_price : ℚ
  min_bid : Option ℚ
  instant_buy : Bool
  instant_buy_price : Option ℚ
  sold_price : Option ℚ
  created_at : ℤ
  updated_at : Option ℤ
  bids : List Bid
  product : Product
deriving DecidableEq, Repr

/-- `Auction.has_ended` (`auction_model.py` lines 107–125).  NOTE the guard:
`if not self.end_time: return False` runs first, so when `end_time` is
`None` the method returns `False` regardless of `state` and `instant_buy`. -/
def Auction.has_ended (a : Auction) (now : ℤ) : Bool :=
  match a.end_time with
  | none => false
  | some t =>
      decide (a.state = State.finished) || decide (t < now) || a.instant_buy

/-- Python `max(bids, key=lambda bid: bid.amount)`: scan left to right,
replacing the running maximum only on a strictly greater key — the first
maximal element wins ties. -/
def py_max_by_amount (b : Bid) : List Bid → Bid
  | [] => b
  | c :: cs =>
      if b.amount < c.amount then py_max_by_amount c cs
      else py_max_by_amount b cs

/-- `Auction.get_highest_bid` (`auction_model.py` lines 127–138):
`None` on an empty bid list, else `max(self.bids, key=lambda bid: bid.amount)`. -/
def Auction.get_highest_bid (a : Auction) : Option Bid :=
  match a.bids with
  | [] => none
  | b :: bs => some (py_max_by_amount b bs)

/-- `is_bid_too_low` (`routers/auctions.py` lines 413–423), verbatim:
below starting price when no prior bid, below highest + increment otherwise. -/
def is_bid_too_low (bid_amount current_highest_bid : ℚ) (live_auction : Auction)
    (min_bid : ℚ) : Bool :=
  if current_highest_bid = 0 ∧ bid_amount < live_auction.starting_price then
    true
  else if 0 < current_highest_bid ∧ bid_amount < current_highest_bid + min_bid then
    true
  else
    false

/-- `calculate_min_required_bid` (`routers/auctions.py` lines 406–410). -/
def calculate_min_required_bid (live_auction : Auction)
    (current_highest_bid min_bid : ℚ) : ℚ :=
  if current_highest_bid = 0 ∧ live_auction.starting_price = 0 then
    live_auction.starting_price + min_bid
  else
    max live_auction.starting_price (current_highest_bid + min_bid)

/-- Line 372 of `routers/auctions.py`:
`min_bid = db_auction.min_bid if db_auction.min_bid else Decimal("0.01")`.
Python truthiness: both `None` and `Decimal("0")` fall back to `0.01`. -/
def effective_min_bid (a : Auction) : ℚ :=
  match a.min_bid with
  | none => 1 / 100
  | some m => if m = 0 then 1 / 100 else m

/-- Lines 352–355 of `routers/auctions.py`:
`db_auction.instant_buy_price and bid.amount >= db_auction.instant_buy_price`.
Python truthiness again: a `None` or zero `instant_buy_price` never triggers. -/
def instant_buy_triggered (a : Auction) (amount : ℚ) : Bool :=
  match a.instant_buy_price with
  | none => false
  | some p => decide (¬ p = 0) && decide (p ≤ amount)

/-- The `ended` field of the cannot-bid diagnostic payload
(`routers/auctions.py` lines 341–343):
`end_time < utils.get_current_timestamp() if end_time else False`. -/
def ended_flag (a : Auction) (now : ℤ) : Bool :=
  match a.end_time with
  | none => false
  | some t => decide (t < now)

/-- Outcome of `bid_on_auction`: the two `HTTPException` rejection payloads
(lines 336–349 and 389–399 of `routers/auctions.py`), the uncaught
`ValidationError` that `AuctionLive.model_validate(db_auction)` (line 369)
raises when a required `AuctionLive` field is null (an HTTP 500, carrying
here the offending nullable timestamps), and the two success responses
(lines 365 and 403, `instant_buy` true resp. false). -/
inductive BidOutcome where
  | rejectedEnded (state : State) (ended : Bool) (end_time : Option ℤ)
      (instant_buy : Bool)
  | rejectedTooLow (bid min_required_bid starting_price min_bid highest_bid : ℚ)
  | validationError (start_time end_time : Option ℤ)
  | acceptedInstantBuy (b : Bid)
  | accepted (b : Bid)
deriving DecidableEq, Repr

/-- An outcome that raises the `HTTPException` of one of the two structured
rejection paths (a `ValidationError` is an unhandled 500, not one of
them). -/
def BidOutcome.isRejection : BidOutcome → Bool
  | .rejectedEnded _ _ _ _ => true
  | .rejectedTooLow _ _ _ _ _ => true
  | _ => false

/-- An outcome that returns a created bid (lines 365 and 403). -/
def BidOutcome.isAccepted : BidOutcome → Bool
  | .acceptedInstantBuy _ => true
  | .accepted _ => true
  | _ => false

/-- The `Bid(**bid_dict, bidder_id=..., auction_id=..., created_at=now)`
constructor call inside `create_bid` (`routers/auctions.py` lines 433–439). -/
def mkBid (bidder_id : Nat) (amount : ℚ) (auction_id : Nat) (now : ℤ) : Bid :=
  { bidder_id := bidder_id, amount := amount, auction_id := auction_id,
    created_at := now }

/-- `create_bid` (`routers/auctions.py` lines 426–447): build the bid,
append it to `db_auction.bids`, commit; returns the refreshed bid together
with the auction as committed. -/
def create_bid (bidder_id : Nat) (amount : ℚ) (a : Auction) (now : ℤ) :
    Bid × Auction :=
  let nb := mkBid bidder_id amount a.id now
  (nb, { a with bids := a.bids ++ [nb] })

/-- The normal (non-instant-buy) tail of `bid_on_auction`
(`routers/auctions.py` lines 367–403): compute the highest bid (line 368),
then `live_auction = AuctionLive.model_validate(db_auction)` (line 369) —
`AuctionLive` declares `start_time` and `end_time` as required `datetime`,
so the validation raises `ValidationError` (uncaught, HTTP 500) whenever
either is null; all other fields `AuctionLive` requires are total in this
model.  Past the validation: the effective minimum increment and current
highest amount, rejection with the full diagnostic payload when
`is_bid_too_low`, otherwise `create_bid`. -/
def bid_normal_path (a : Auction) (bidder_id : Nat) (amount : ℚ) (now : ℤ) :
    Auction × BidOutcome :=
  let highest_bidder := a.get_highest_bid
  if a.start_time = none ∨ a.end_time = none then
    (a, .validationError a.start_time a.end_time)
  else
  let min_bid := effective_min_bid a
  let current_highest_bid :=
    match highest_bidder with
    | some b => b.amount
    | none => 0
  if is_bid_too_low amount current_highest_bid a min_bid then
    (a, .rejectedTooLow amount
          (calculate_min_required_bid a current_highest_bid min_bid)
          a.starting_price min_bid current_highest_bid)
  else
    let r := create_bid bidder_id amount a now
    (r.2, .accepted r.1)

/-- `bid_on_auction` (`routers/auctions.py` lines 296–403).  In source
order: (1) the cannot-bid gate `has_ended() or state == setup`, raising with
the diagnostic payload; (2) the instant-buy branch — the bid is created with
its literal amount, then `new_bid.amount = db_auction.instant_buy_price`
mutates the very object sitting in `db_auction.bids` (so the committed list
holds the clamped amount), `instant_buy`/`product.sold` are set and
`end_time` is rewritten to the bid's `created_at`; (3) the too-low check and
normal bid creation.  The returned auction is the state as committed; on a
rejection the handler raises before any mutation, so the auction is
returned unchanged. -/
def bid_on_auction (a : Auction) (bidder_id : Nat) (amount : ℚ) (now : ℤ) :
    Auction × BidOutcome :=
  if a.has_ended now = true ∨ a.state = State.setup then
    (a, .rejectedEnded a.state (ended_flag a now) a.end_time a.instant_buy)
  else if instant_buy_triggered a amount = true then
    let p := a.instant_buy_price.getD 0
    let nb0 := mkBid bidder_id amount a.id now
    let nb := { nb0 with amount := p }
    ({ a with
        bids := a.bids ++ [nb],
        instant_buy := true,
        product := { a.product with sold := true },
        end_time := some nb0.created_at },
     .acceptedInstantBuy nb)
  else
    bid_normal_path a bidder_id amount now

/-- Outcome of `start_auction` (`routers/auctions.py` lines 242–288): the
publish either succeeds or raises the invalid-state `HTTPException`
carrying the offending state. -/
inductive StartOutcome where
  | ok (a : Auction)
  | invalidState (offending : State)
deriving DecidableEq, Repr

/-- The default `duration: timedelta = timedelta(minutes=5)` of
`start_auction`, in seconds. -/
def default_duration : ℤ := 5 * 60

/-- `start_auction` (`routers/auctions.py` lines 242–288): reject any
auction not in `setup`, else set `state = live`,
`end_time = current_time + duration`, `start_time = current_time`,
`updated_at = current_time` and commit. -/
def start_auction (a : Auction) (now duration : ℤ) : StartOutcome :=
  if ¬ a.state = State.setup then
    .invalidState a.state
  else
    .ok { a with
            state := State.live,
            end_time := some (now + duration),
            start_time := some now,
            updated_at := some now }

/-- One notification email dispatched by the sweeper: which auction it is
about and who receives it. -/
structure Notification where
  auction_id : Nat
  recipient_id : Nat
deriving DecidableEq, Repr

/-- Result of `finish_auction`: the auction as committed, the notifications
actually delivered, and whether an email exception escaped the function
(no send in the source is wrapped in `try`/`except`). -/
structure FinishResult where
  auction : Auction
  notifs : List Notification
  raised : Bool
deriving DecidableEq, Repr

/-- `finish_auction` (`routers/auctions.py` lines 729–755).  In source
order: `highest_bid = auction.get_highest_bid()`; the `buyer` local is bound
from the relationship BEFORE any mutation (for a null `buyer_id` the
`UserPublic.model_validate` raises `ValidationError` and `buyer` becomes
`None`); if a highest bid with positive amount exists, `buyer_id`,
`sold_price`, `updated_at` and the product's `sold` flag are set; in every
case `state = finished`; the session is committed; only THEN the owner
email and, when the pre-settlement `buyer` existed, the buyer email are
sent synchronously.  A raising send happens after the commit (so the
settlement stands) but propagates out of the function. -/
def finish_auction (emailOk : Nat → Nat → Bool) (a : Auction) (now : ℤ) :
    FinishResult :=
  let highest_bid := a.get_highest_bid
  let pre_buyer := a.buyer_id
  let a1 :=
    match highest_bid with
    | some hb =>
        if 0 < hb.amount then
          { a with
              buyer_id := some hb.bidder_id,
              sold_price := some hb.amount,
              updated_at := some now,
              product := { a.product with sold := true } }
        else a
    | none => a
  let a2 := { a1 with state := State.finished }
  if emailOk a.id a.owner_id = false then
    { auction := a2, notifs := [], raised := true }
  else
    match pre_buyer with
    | none =>
        { auction := a2,
          notifs := [{ auction_id := a.id, recipient_id := a.owner_id }],
          raised := false }
    | some b =>
        if emailOk a.id b = false then
          { auction := a2,
            notifs := [{ auction_id := a.id, recipient_id := a.owner_id }],
            raised := true }
        else
          { auction := a2,
            notifs := [{ auction_id := a.id, recipient_id := a.owner_id },
                       { auction_id := a.id, recipient_id := b }],
            raised := false }

/-- Result of one settlement sweep over the whole auction table: the table
as left behind, the ids of the auctions whose settlement was committed, the
notifications delivered, and whether an email exception aborted the sweep. -/
structure SweepResult where
  auctions : List Auction
  settled : List Nat
  notifs : List Notification
  raised : Bool
deriving DecidableEq, Repr

/-- The loop body of `process_finished_auctions` (`routers/auctions.py`
lines 705–718), folded over the table.  The source queries only
`state == live` rows (an empty result raises `HTTPException`, caught and
swallowed) through `db_handler.read_objects`, whose defaults apply
`stmt.offset(0).limit(100)` — the query returns at most 100 live rows per
sweep.  The fold threads that page budget as `limit`: a `live` row within
the budget is processed and consumes one slot; a `live` row after the
budget is exhausted was not selected by the query and is passed through
untouched; rows in other states are not in the query result and are passed
through without consuming budget.  The query's `order_by end_time desc`
only decides which live rows fill the page (the model pages in table
order); it never changes how a selected row is treated or how many are
selected.  For each selected live auction: with no `end_time` the
self-heal resets `state` to `setup` and continues — no settlement, no
notification; with `end_time < now or instant_buy` the auction is settled
by `finish_auction`.  `finish_auction` is not wrapped in `try`/`except`,
so a raising email send aborts the loop: the remaining auctions are left
exactly as they were (the raising auction's own settlement was already
committed). -/
def process_live_auctions (emailOk : Nat → Nat → Bool) (now : ℤ) :
    Nat → List Auction → SweepResult
  | _, [] => { auctions := [], settled := [], notifs := [], raised := false }
  | limit, a :: rest =>
    if ¬ a.state = State.live then
      let r := process_live_auctions emailOk now limit rest
      { auctions := a :: r.auctions, settled := r.settled,
        notifs := r.notifs, raised := r.raised }
    else
      match limit with
      | 0 =>
          let r := process_live_auctions emailOk now 0 rest
          { auctions := a :: r.auctions, settled := r.settled,
            notifs := r.notifs, raised := r.raised }
      | Nat.succ limit =>
          match a.end_time with
          | none =>
              let r := process_live_auctions emailOk now limit rest
              { auctions := { a with state := State.setup } :: r.auctions,
                settled := r.settled, notifs := r.notifs, raised := r.raised }
          | some t =>
              if t < now ∨ a.instant_buy = true then
                let f := finish_auction emailOk a now
                if f.raised then
                  { auctions := f.auction :: rest, settled := [a.id],
                    notifs := f.notifs, raised := true }
                else
                  let r := process_live_auctions emailOk now limit rest
                  { auctions := f.auction :: r.auctions,
                    settled := a.id :: r.settled,
                    notifs := f.notifs ++ r.notifs, raised := r.raised }
              else
                let r := process_live_auctions emailOk now limit rest
                { auctions := a :: r.auctions, settled := r.settled,
                  notifs := r.notifs, raised := r.raised }

/-- `process_finished_auctions` (`routers/auctions.py` lines 668–726),
as a function of the whole auction table, with the live-auction query's
default page of `offset(0).limit(100)` (`db_handler.read_objects`). -/
def process_finished_auctions (emailOk : Nat → Nat → Bool)
    (table : List Auction) (now : ℤ) : SweepResult :=
  process_live_auctions emailOk now 100 table

/-- The number of `live` rows in a table: the size of the sweep query's
result set before the page limit is applied. -/
def live_count (l : List Auction) : Nat :=
  (l.filter fun a => decide (a.state = State.live)).length

/-- A non-`live` head does not change the live count. -/
theorem live_count_cons_of_not_live (b : Auction) (l : List Auction)
    (hb : ¬ b.state = State.live) :
    live_count (b :: l) = live_count l := by
  unfold live_count
  simp [List.filter_cons, hb]

/-- A `live` head adds one to the live count. -/
theorem live_count_cons_of_live (b : Auction) (l : List Auction)
    (hb : b.state = State.live) :
    live_count (b :: l) = live_count l + 1 := by
  unfold live_count
  simp [List.filter_cons, hb]

/-- A concrete live auction reused by witnesses and counterexamples below:
starting price 10, increment 2, published until time 100, no bids yet. -/
def base_auction : Auction :=
  { id := 1, owner_id := 1, product_id := 1, buyer_id := none,
    state := State.live, start_time := some 0, end_time := some 100,
    starting_price := 10, min_bid := some 2, instant_buy := false,
    instant_buy_price := none, sold_price := none, created_at := 0,
    updated_at := none, bids := [], product := { id := 1, sold := false } }

/-- The running maximum in the Python `max` scan never decreases. -/
theorem py_max_le (l : List Bid) (b : Bid) :
    b.amount ≤ (py_max_by_amount b l).amount := by
  induction l generalizing b with
  | nil => simp [py_max_by_amount]
  | cons c cs ih =>
    simp only [py_max_by_amount]
    by_cases h : b.amount < c.amount
    · rw [if_pos h]
      exact le_of_lt (lt_of_lt_of_le h (ih c))
    · rw [if_neg h]
      exact ih b

/-- The Python `max` scan returns an element of the scanned list. -/
theorem py_max_mem (l : List Bid) (b : Bid) :
    py_max_by_amount b l ∈ b :: l := by
  induction l generalizing b with
  | nil => simp [py_max_by_amount]
  | cons c cs ih =>
    simp only [py_max_by_amount]
    by_cases h : b.amount < c.amount
    · rw [if_pos h]
      exact List.mem_cons_of_mem b (ih c)
    · rw [if_neg h]
      rcases List.mem_cons.mp (ih b) with h1 | h1
      · rw [h1]
        exact List.mem_cons_self b _
      · exact List.mem_cons_of_mem b (List.mem_cons_of_mem c h1)

/-- The Python `max` scan dominates every element of the scanned list. -/
theorem py_max_max (l : List Bid) (b : Bid) :
    ∀ c ∈ b :: l, c.amount ≤ (py_max_by_amount b l).amount := by
  induction l generalizing b with
  | nil =>
    intro c hc
    simp only [List.mem_singleton] at hc
    simp [py_max_by_amount, hc]
  | cons d ds ih =>
    intro c hc
    simp only [py_max_by_amount]
    by_cases h : b.amount < d.amount
    · rw [if_pos h]
      rcases List.mem_cons.mp hc with rfl | hc'
      · exact le_trans (le_of_lt h) (py_max_le ds d)
      · exact ih d c hc'
    · rw [if_neg h]
      rcases List.mem_cons.mp hc with rfl | hc'
      · exact py_max_le ds c
      · rcases List.mem_cons.mp hc' with rfl | hc''
        · exact le_trans (not_lt.mp h) (py_max_le ds b)
        · exact ih b c (List.mem_cons_of_mem b hc'')

/-- The Python `max` scan either keeps its seed or strictly improves on it. -/
theorem py_max_eq_or_lt (l : List Bid) (b : Bid) :
    py_max_by_amount b l = b ∨ b.amount < (py_max_by_amount b l).amount := by
  induction l generalizing b with
  | nil => exact Or.inl rfl
  | cons c cs ih =>
    simp only [py_max_by_amount]
    by_cases h : b.amount < c.amount
    · rw [if_pos h]
      exact Or.inr (lt_of_lt_of_le h (py_max_le cs c))
    · rw [if_neg h]
      exact ih b

/-- On a list whose `created_at` stamps are nondecreasing, the first
maximal element returned by the Python `max` scan is the earliest-created
among all elements attaining the maximum amount. -/
theorem py_max_earliest (l : List Bid) (b : Bid)
    (hsort : (b :: l).Pairwise fun x y => x.created_at ≤ y.created_at) :
    ∀ c ∈ b :: l, c.amount = (py_max_by_amount b l).amount →
      (py_max_by_amount b l).created_at ≤ c.created_at := by
  induction l generalizing b with
  | nil =>
    intro c hc _
    simp only [List.mem_singleton] at hc
    simp [py_max_by_amount, hc]
  | cons d ds ih =>
    intro c hc hamt
    simp only [py_max_by_amount] at hamt ⊢
    by_cases h : b.amount < d.amount
    · rw [if_pos h] at hamt ⊢
      have hds : (d :: ds).Pairwise fun x y => x.created_at ≤ y.created_at :=
        hsort.of_cons
      rcases List.mem_cons.mp hc with rfl | hc'
      · exact absurd hamt (ne_of_lt (lt_of_lt_of_le h (py_max_le ds d)))
      · exact ih d hds c hc' hamt
    · rw [if_neg h] at hamt ⊢
      have hparts := List.pairwise_cons.mp hsort
      have hsort' : (b :: ds).Pairwise fun x y => x.created_at ≤ y.created_at :=
        List.pairwise_cons.mpr
          ⟨fun x hx => hparts.1 x (List.mem_cons_of_mem d hx),
           hparts.2.of_cons⟩
      rcases List.mem_cons.mp hc with rfl | hc'
      · exact ih c hsort' c (List.mem_cons_self c ds) hamt
      · rcases List.mem_cons.mp hc' with rfl | hc''
        · rcases py_max_eq_or_lt ds b with he | hlt
          · rw [he]
            exact hparts.1 c (List.mem_cons_self c ds)
          · have hcon : b.amount < c.amount := by
              rw [hamt]
              exact hlt
            exact absurd hcon h
        · exact ih b hsort' c (List.mem_cons_of_mem b hc'') hamt

/-- `finish_auction` always commits `state = finished`, in every email
branch. -/
theorem finish_auction_finishes (emailOk : Nat → Nat → Bool) (a : Auction)
    (now : ℤ) : (finish_auction emailOk a now).auction.state = State.finished := by
  unfold finish_auction
  dsimp only
  split
  · rfl
  · split
    · rfl
    · split
      · rfl
      · rfl

/-- With an always-succeeding email transport, `finish_auction` never
raises. -/
theorem finish_auction_ok_raised (a : Auction) (now : ℤ) :
    (finish_auction (fun _ _ => true) a now).raised = false := by
  unfold finish_auction
  dsimp only
  cases hb : a.buyer_id <;> simp

/-- After a failure-free sweep, every auction still `live` in the table has
an `end_time` that has not yet passed and a clear `instant_buy` flag:
settled auctions left `live` no longer exist. -/
theorem sweep_output_live_invariant (now : ℤ) (limit : Nat)
    (l : List Auction) (hc : live_count l ≤ limit) :
    ∀ a ∈ (process_live_auctions (fun _ _ => true) now limit l).auctions,
      a.state = State.live →
        ∃ t, a.end_time = some t ∧ ¬ t < now ∧ a.instant_buy = false := by
  induction l generalizing limit with
  | nil =>
    intro a ha
    simp [process_live_auctions] at ha
  | cons b rest ih =>
    intro a ha hlive
    simp only [process_live_auctions] at ha
    by_cases hb : b.state = State.live
    · rw [if_neg (not_not_intro hb)] at ha
      rw [live_count_cons_of_live b rest hb] at hc
      cases limit with
      | zero => exact absurd hc (by omega)
      | succ k =>
        have hck : live_count rest ≤ k := by omega
        dsimp only at ha
        split at ha
        · dsimp only at ha
          rcases List.mem_cons.mp ha with rfl | ha'
          · simp at hlive
          · exact ih k hck a ha' hlive
        · next t het =>
          split at ha
          · next hcond =>
            split at ha
            · next hraised =>
              rw [finish_auction_ok_raised] at hraised
              exact absurd hraised (by simp)
            · dsimp only at ha
              rcases List.mem_cons.mp ha with rfl | ha'
              · rw [finish_auction_finishes] at hlive
                exact absurd hlive (by simp)
              · exact ih k hck a ha' hlive
          · next hcond =>
            dsimp only at ha
            rcases List.mem_cons.mp ha with rfl | ha'
            · obtain ⟨h1, h2⟩ := not_or.mp hcond
              exact ⟨t, het, h1, by simpa using h2⟩
            · exact ih k hck a ha' hlive
    · rw [if_pos hb] at ha
      rw [live_count_cons_of_not_live b rest hb] at hc
      dsimp only at ha
      rcases List.mem_cons.mp ha with rfl | ha'
      · exact absurd hlive hb
      · exact ih limit hc a ha' hlive

/-- A table in which every `live` auction has an unexpired `end_time` and a
clear `instant_buy` flag is a fixed point of the sweep at every page
budget: nothing is settled, nobody is notified. -/
theorem sweep_fixed_point (emailOk : Nat → Nat → Bool) (now : ℤ)
    (limit : Nat) (l : List Auction)
    (hl : ∀ a ∈ l, a.state = State.live →
        ∃ t, a.end_time = some t ∧ ¬ t < now ∧ a.instant_buy = false) :
    process_live_auctions emailOk now limit l =
      { auctions := l, settled := [], notifs := [], raised := false } := by
  induction l generalizing limit with
  | nil => rfl
  | cons b rest ih =>
    have hrest := fun lim =>
      ih lim fun a ha h => hl a (List.mem_cons_of_mem b ha) h
    simp only [process_live_auctions]
    by_cases hb : b.state = State.live
    · obtain ⟨t, het, hnlt, hib⟩ := hl b (List.mem_cons_self b rest) hb
      rw [if_neg (not_not_intro hb)]
      cases limit with
      | zero =>
        dsimp only
        rw [hrest 0]
      | succ k =>
        dsimp only
        rw [het]
        dsimp only
        rw [if_neg (not_or.mpr ⟨hnlt, by simp [hib]⟩), hrest k]
    · rw [if_pos hb, hrest limit]

/-- A sweep never settles more auctions than its page budget allows. -/
theorem sweep_settled_le (emailOk : Nat → Nat → Bool) (now : ℤ)
    (limit : Nat) (l : List Auction) :
    (process_live_auctions emailOk now limit l).settled.length ≤ limit := by
  induction l generalizing limit with
  | nil => simp [process_live_auctions]
  | cons b rest ih =>
    simp only [process_live_auctions]
    by_cases hb : b.state = State.live
    · rw [if_neg (not_not_intro hb)]
      cases limit with
      | zero =>
        dsimp only
        exact ih 0
      | succ k =>
        dsimp only
        cases het : b.end_time with
        | none =>
          dsimp only
          exact Nat.le_succ_of_le (ih k)
        | some t =>
          dsimp only
          split
          · split
            · simp
            · dsimp only
              simpa using Nat.succ_le_succ (ih k)
          · dsimp only
            exact Nat.le_succ_of_le (ih k)
    · rw [if_pos hb]
      exact ih limit

/-- Claim C5 as amended: a single sweep settles at most 100 auctions (the
live-auction query's default page limit); and when at most 100 auctions
are live, running the sweep twice in immediate succession settles each
ended auction exactly once — the second sweep (over the table the first
one left, at the same instant, with a working email transport) settles
zero additional auctions, sends no notifications and changes no auction,
in particular re-assigning no `buyer_id`. -/
theorem spec_C5_amended (emailOk : Nat → Nat → Bool) (table : List Auction)
    (now : ℤ) :
    (process_finished_auctions emailOk table now).settled.length ≤ 100
    ∧ (live_count table ≤ 100 →
        process_finished_auctions (fun _ _ => true)
            (process_finished_auctions (fun _ _ => true) table now).auctions
            now =
          { auctions :=
              (process_finished_auctions (fun _ _ => true) table now).auctions,
            settled := [], notifs := [], raised := false }) := by
  constructor
  · exact sweep_settled_le emailOk now 100 table
  · intro h
    unfold process_finished_auctions
    exact sweep_fixed_point (fun _ _ => true) now 100 _
      (sweep_output_live_invariant now 100 table h)

/-- Claim C7: publish succeeds only from `setup`, setting
`state = live`, `start_time = now`, `end_time = now + duration` and
`updated_at = now`; on a non-`setup` auction it raises carrying the
offending state; the route's default duration is 5 minutes. -/
theorem spec_C7_publish (a : Auction) (now duration : ℤ) :
    (a.state = State.setup →
       start_auction a now duration =
         .ok { a with state := State.live,
                      end_time := some (now + duration),
                      start_time := some now,
                      updated_at := some now })
    ∧ (¬ a.state = State.setup →
       start_auction a now duration = .invalidState a.state)
    ∧ default_duration = 5 * 60 := by
  refine ⟨fun h => ?_, fun h => ?_, rfl⟩
  · unfold start_auction
    rw [if_neg (not_not_intro h)]
  · unfold start_auction
    rw [if_pos h]

/-- Witness for C7: a concrete `setup` auction publishes with the default
duration, and publishing the same auction in `live` state is rejected with
the offending state. -/
theorem spec_C7_publish_witness :
    start_auction { base_auction with state := State.setup } 0 default_duration =
      .ok { { base_auction with state := State.setup } with
              state := State.live,
              end_time := some (0 + default_duration),
              start_time := some 0,
              updated_at := some 0 } ∧
    start_auction base_auction 0 default_duration =
      .invalidState State.live := by
  constructor
  · exact (spec_C7_publish { base_auction with state := State.setup } 0
      default_duration).1 rfl
  · exact (spec_C7_publish base_auction 0 default_duration).2.1 (by decide)

/-- Claim C8: a `live` auction with no `end_time` found by the sweeper is
reset to `setup`, is not settled (not recorded as settled), generates no
notification, and the sweep continues with the remaining auctions; the
anomaly raises nothing. -/
theorem spec_C8_self_heal (emailOk : Nat → Nat → Bool) (now : ℤ)
    (limit : Nat) (a : Auction) (rest : List Auction)
    (hlive : a.state = State.live) (hend : a.end_time = none) :
    process_live_auctions emailOk now (limit + 1) (a :: rest) =
      { auctions := { a with state := State.setup } ::
          (process_live_auctions emailOk now limit rest).auctions,
        settled := (process_live_auctions emailOk now limit rest).settled,
        notifs := (process_live_auctions emailOk now limit rest).notifs,
        raised := (process_live_auctions emailOk now limit rest).raised } := by
  simp only [process_live_auctions]
  rw [if_neg (not_not_intro hlive), hend]

/-- A concrete data anomaly: a `live` auction whose `end_time` is null. -/
def anomalous_auction : Auction := { base_auction with end_time := none }

/-- Witness for C8 at a concrete one-row table, with the route's page
budget of 100. -/
theorem spec_C8_self_heal_witness :
    process_live_auctions (fun _ _ => true) 0 100 [anomalous_auction] =
      { auctions := [{ anomalous_auction with state := State.setup }],
        settled := [], notifs := [], raised := false } := by
  have h := spec_C8_self_heal (fun _ _ => true) 0 99 anomalous_auction []
    rfl rfl
  exact h

/-- Claim C10: every rejection path of `bid_on_auction` (ended/setup gate,
or too-low bid) raises before any mutation or persistence call: the auction
as committed is exactly the input — same bid collection, same state,
`end_time`, `instant_buy`, `buyer_id`, `sold_price` and product `sold`
flag. -/
theorem spec_C10_rejection_no_mutation (a : Auction) (bidder : Nat)
    (amount : ℚ) (now : ℤ)
    (h : ((bid_on_auction a bidder amount now).2).isRejection = true) :
    (bid_on_auction a bidder amount now).1 = a := by
  unfold bid_on_auction bid_normal_path at h ⊢
  dsimp only at h ⊢
  split_ifs at h ⊢ with h1 h2 h3
  all_goals first
    | rfl
    | simp [BidOutcome.isRejection] at h

/-- Witness for C10: a too-low first bid of 5 against starting price 10 is
rejected and leaves the auction untouched. -/
theorem spec_C10_rejection_no_mutation_witness :
    (bid_on_auction base_auction 7 5 0).1 = base_auction :=
  spec_C10_rejection_no_mutation base_auction 7 5 0 (by decide)

/-- Modelled from the spec: the §4.1 `has_ended` predicate exactly as the
spec words it — `state == finished`, OR `end_time is not None and
end_time < now()`, OR `instant_buy == True`.  Kept only to compare against
the code's `Auction.has_ended`. -/
def spec_has_ended (a : Auction) (now : ℤ) : Bool :=
  decide (a.state = State.finished) || ended_flag a now || a.instant_buy

/-- A `finished` auction whose `end_time` is null: the corner where the
code's `has_ended` and the spec's wording disagree. -/
def finished_no_end_time : Auction :=
  { base_auction with state := State.finished, end_time := none }

/-- Counterexample to claim C2 as stated: on a `finished` auction with
`end_time = None` the spec's wording makes `has_ended` true (the auction is
`finished`), but the code's `has_ended` returns false because of its
leading `if not self.end_time: return False` guard. -/
theorem spec_C2_counterexample :
    finished_no_end_time.state = State.finished
    ∧ spec_has_ended finished_no_end_time 0 = true
    ∧ Auction.has_ended finished_no_end_time 0 = false := by decide

/-- Claim C2 as amended: `has_ended` is true exactly when `end_time` is
non-null AND (`state == finished` or `end_time < now()` or
`instant_buy == True`); and whenever `has_ended` is true or
`state == setup`, `bid_on_auction` rejects the bid with the diagnostic
payload of state, ended flag, `end_time` and `instant_buy` — in particular
a bid arriving after the deadline but before the next sweep is rejected. -/
theorem spec_C2_amended (a : Auction) (now : ℤ) (bidder : Nat) (amount : ℚ) :
    (a.has_ended now = true ↔
       ∃ t, a.end_time = some t ∧
         (a.state = State.finished ∨ t < now ∨ a.instant_buy = true))
    ∧ ((a.has_ended now = true ∨ a.state = State.setup) →
       bid_on_auction a bidder amount now =
         (a, .rejectedEnded a.state (ended_flag a now) a.end_time
               a.instant_buy)) := by
  constructor
  · unfold Auction.has_ended
    cases h : a.end_time with
    | none => simp
    | some t =>
      simp [or_assoc]
  · intro h
    unfold bid_on_auction
    rw [if_pos h]

/-- An auction still in `setup`: never published, no timestamps. -/
def setup_auction : Auction :=
  { base_auction with
      state := State.setup,
      start_time := none,
      end_time := none }

/-- Witness for C2: bidding on a `setup` auction is rejected with the
diagnostic payload. -/
theorem spec_C2_amended_witness :
    bid_on_auction setup_auction 7 50 0 =
      (setup_auction, .rejectedEnded State.setup false none false) :=
  (spec_C2_amended setup_auction 0 7 50).2 (Or.inr rfl)

/-- Lines 375–377 of `routers/auctions.py`:
`current_highest_bid = highest_bidder.amount if highest_bidder else Decimal("0")`. -/
def current_highest_bid_of (a : Auction) : ℚ :=
  match a.get_highest_bid with
  | some b => b.amount
  | none => 0

/-- `bid_normal_path` unfolded through its local bindings, once the
`AuctionLive` validation passes (`start_time` and `end_time` both set). -/
theorem bid_normal_path_eq (a : Auction) (bidder : Nat) (amount : ℚ)
    (now : ℤ) (hv : ¬ (a.start_time = none ∨ a.end_time = none)) :
    bid_normal_path a bidder amount now =
      if is_bid_too_low amount (current_highest_bid_of a) a
          (effective_min_bid a) then
        (a, .rejectedTooLow amount
              (calculate_min_required_bid a (current_highest_bid_of a)
                (effective_min_bid a))
              a.starting_price (effective_min_bid a)
              (current_highest_bid_of a))
      else
        ((create_bid bidder amount a now).2,
         .accepted (create_bid bidder amount a now).1) := by
  unfold bid_normal_path
  dsimp only
  rw [if_neg hv]
  unfold current_highest_bid_of
  rfl

/-- When the gate admits the bid and the instant-buy threshold is not met,
`bid_on_auction` is the normal too-low-or-append path. -/
theorem bid_on_auction_normal_case (a : Auction) (bidder : Nat) (amount : ℚ)
    (now : ℤ)
    (hgate : ¬ (a.has_ended now = true ∨ a.state = State.setup))
    (hib : instant_buy_triggered a amount = false) :
    bid_on_auction a bidder amount now = bid_normal_path a bidder amount now := by
  unfold bid_on_auction
  rw [if_neg hgate, if_neg (by simp [hib])]

/-- An ended live auction (deadline already passed), id 1, no bids. -/
def ended_auction_one : Auction :=
  { base_auction with id := 1, end_time := some (-1) }

/-- A second ended live auction, id 2, no bids. -/
def ended_auction_two : Auction :=
  { base_auction with id := 2, end_time := some (-1) }

/-- An email transport whose send raises for every notification about
auction 1 and succeeds for every other auction. -/
def email_fails_for_one : Nat → Nat → Bool :=
  fun aid _ => decide (¬ aid = 1)

/-- Claim C9 evaluated at the failing input: sweeping the two-row table
`[auction 1, auction 2]` (both `live` and past their deadline) while the
owner notification for auction 1 raises.  Because neither `finish_auction`
nor the sweep loop catches the email exception, the sweep aborts with
auction 2 left `live` and unsettled — the remaining settlements of the same
sweep ARE aborted, contradicting the claim; auction 1's own settlement,
committed before the send, stands (`finished` in the table), confirming the
claim's no-rollback half. -/
theorem spec_C9_email_failure_aborts_sweep :
    process_finished_auctions email_fails_for_one
        [ended_auction_one, ended_auction_two] 0 =
      { auctions := [{ ended_auction_one with state := State.finished },
                     ended_auction_two],
        settled := [1], notifs := [], raised := true }
    ∧ ended_auction_two.state = State.live := by decide

/-- A table of 101 ended live auctions (ids 0 to 100), one more than the
sweep query's page limit. -/
def many_ended_auctions : List Auction :=
  (List.range 101).map fun i => { ended_auction_one with id := i }

/-- Counterexample to claim C5 as stated: with 101 ended live auctions the
first sweep settles only the query page of 100, and the second sweep in
immediate succession settles one ADDITIONAL auction (id 100) and sends a
notification for it — the second sweep does not settle zero additional
auctions. -/
theorem spec_C5_counterexample :
    live_count many_ended_auctions = 101
    ∧ (process_finished_auctions (fun _ _ => true)
        many_ended_auctions 0).settled.length = 100
    ∧ (process_finished_auctions (fun _ _ => true)
        (process_finished_auctions (fun _ _ => true)
          many_ended_auctions 0).auctions 0).settled = [100]
    ∧ (process_finished_auctions (fun _ _ => true)
        (process_finished_auctions (fun _ _ => true)
          many_ended_auctions 0).auctions 0).notifs =
      [{ auction_id := 100, recipient_id := 1 }] := by decide

/-- Witness for C5 amended at a concrete one-row table holding a single
ended live auction. -/
theorem spec_C5_amended_witness :
    (process_finished_auctions (fun _ _ => true)
        [ended_auction_one] 0).settled.length ≤ 100
    ∧ process_finished_auctions (fun _ _ => true)
        (process_finished_auctions (fun _ _ => true)
          [ended_auction_one] 0).auctions 0 =
      { auctions :=
          (process_finished_auctions (fun _ _ => true)
            [ended_auction_one] 0).auctions,
        settled := [], notifs := [], raised := false } :=
  ⟨(spec_C5_amended (fun _ _ => true) [ended_auction_one] 0).1,
   (spec_C5_amended (fun _ _ => true) [ended_auction_one] 0).2 (by decide)⟩

/-- A live auction whose instant-buy threshold (3) sits below its starting
price (10). -/
def cheap_instant_auction : Auction :=
  { base_auction with instant_buy_price := some 3 }

/-- A live auction with a highest bid of 10 whose configured `min_bid` is
exactly 0.00 (storable: table-model construction and `AuctionUpdate` both
bypass the `ge=1.00` field validation). -/
def zero_min_bid_auction : Auction :=
  { base_auction with
      min_bid := some 0,
      bids := [{ bidder_id := 2, amount := 10, created_at := 1,
                 auction_id := 1 }] }

/-- A live auction that passes the cannot-bid gate (`has_ended` is false
with `end_time = None`) but fails the `AuctionLive` validation: both
timestamps are null while `state = live`. -/
def no_times_live_auction : Auction :=
  { base_auction with
      start_time := none,
      end_time := none }

/-- Counterexample to claim C1 as stated, one conjunct per divergence.
(i) On a live, not-ended auction with no prior bid, a bid of 5 — strictly
below the starting price 10 — is ACCEPTED, because it meets the instant-buy
threshold 3 and the instant-buy branch runs before the too-low check.
(ii) With a highest bid H = 10 and a configured `min_bid` of exactly 0, a
bid equal to `H + min_bid = 10` is REJECTED, because `Decimal("0")` is
falsy on line 372 and the code substitutes 0.01.
(iii) On a live auction with null timestamps (not ended, so admitted by the
gate), a first bid equal to the starting price is NOT accepted: line 369's
`AuctionLive.model_validate` raises `ValidationError` and no bid is
created. -/
theorem spec_C1_counterexample :
    (cheap_instant_auction.bids = []
     ∧ (5 : ℚ) < cheap_instant_auction.starting_price
     ∧ cheap_instant_auction.has_ended 0 = false
     ∧ ¬ cheap_instant_auction.state = State.setup
     ∧ ((bid_on_auction cheap_instant_auction 7 5 0).2).isAccepted = true)
    ∧ (zero_min_bid_auction.min_bid = some 0
     ∧ zero_min_bid_auction.get_highest_bid =
         some { bidder_id := 2, amount := 10, created_at := 1,
                auction_id := 1 }
     ∧ (10 : ℚ) = 10 + 0
     ∧ ((bid_on_auction zero_min_bid_auction 7 10 0).2).isAccepted = false
     ∧ ((bid_on_auction zero_min_bid_auction 7 10 0).2).isRejection = true)
    ∧ (no_times_live_auction.bids = []
     ∧ no_times_live_auction.has_ended 0 = false
     ∧ ¬ no_times_live_auction.state = State.setup
     ∧ (10 : ℚ) = no_times_live_auction.starting_price
     ∧ bid_on_auction no_times_live_auction 7 10 0 =
         (no_times_live_auction, .validationError none none)) := by
  refine ⟨by decide, ⟨rfl, by decide, by norm_num, ?_⟩, by decide⟩
  rw [bid_on_auction_normal_case zero_min_bid_auction 7 10 0 (by decide)
    (by decide), bid_normal_path_eq zero_min_bid_auction 7 10 0 (by decide)]
  have hchb : current_highest_bid_of zero_min_bid_auction = 10 := by decide
  have hemb : effective_min_bid zero_min_bid_auction = 1 / 100 := by
    norm_num [effective_min_bid, zero_min_bid_auction, base_auction]
  have htl : is_bid_too_low 10 (current_highest_bid_of zero_min_bid_auction)
      zero_min_bid_auction (effective_min_bid zero_min_bid_auction)
      = true := by
    rw [hchb, hemb]
    unfold is_bid_too_low
    rw [if_neg (by norm_num), if_pos (by norm_num)]
  rw [if_pos htl]
  exact ⟨rfl, rfl⟩

/-- Claim C1 as amended: for a live, not-ended auction that passes the
`AuctionLive` validation (`start_time` and `end_time` both set), and for a
bid that does not meet the instant-buy threshold: with no prior bid, any
amount below `starting_price` is rejected (with the computed payload) and
an amount equal to `starting_price` is accepted; with a highest bid of
amount H > 0, any amount below `H + min_bid` is rejected and an amount
equal to `H + min_bid` is accepted — `min_bid` being the configured
increment when set and nonzero, else 0.01. -/
theorem spec_C1_amended (a : Auction) (bidder : Nat) (amount : ℚ) (now : ℤ)
    (hgate : ¬ (a.has_ended now = true ∨ a.state = State.setup))
    (hv : ¬ (a.start_time = none ∨ a.end_time = none))
    (hib : instant_buy_triggered a amount = false) :
    (a.bids = [] →
       (amount < a.starting_price →
          (bid_on_auction a bidder amount now).2 =
            .rejectedTooLow amount
              (calculate_min_required_bid a 0 (effective_min_bid a))
              a.starting_price (effective_min_bid a) 0)
       ∧ (amount = a.starting_price →
          ((bid_on_auction a bidder amount now).2).isAccepted = true))
    ∧ (∀ hb, a.get_highest_bid = some hb → 0 < hb.amount →
       ((amount < hb.amount + effective_min_bid a →
           (bid_on_auction a bidder amount now).2 =
             .rejectedTooLow amount
               (calculate_min_required_bid a hb.amount (effective_min_bid a))
               a.starting_price (effective_min_bid a) hb.amount)
        ∧ (amount = hb.amount + effective_min_bid a →
           ((bid_on_auction a bidder amount now).2).isAccepted = true))) := by
  rw [bid_on_auction_normal_case a bidder amount now hgate hib,
    bid_normal_path_eq a bidder amount now hv]
  constructor
  · intro hbids
    have hchb : current_highest_bid_of a = 0 := by
      unfold current_highest_bid_of Auction.get_highest_bid
      rw [hbids]
    rw [hchb]
    constructor
    · intro hlt
      have htl : is_bid_too_low amount 0 a (effective_min_bid a) = true := by
        unfold is_bid_too_low
        rw [if_pos ⟨rfl, hlt⟩]
      rw [if_pos htl]
    · intro heq
      have h1 : ¬ ((0 : ℚ) = 0 ∧ amount < a.starting_price) := by
        intro hcon
        rw [heq] at hcon
        exact absurd hcon.2 (lt_irrefl _)
      have h2 : ¬ ((0 : ℚ) < 0 ∧ amount < 0 + effective_min_bid a) := by
        intro hcon
        exact absurd hcon.1 (lt_irrefl _)
      have htl : is_bid_too_low amount 0 a (effective_min_bid a) = false := by
        unfold is_bid_too_low
        rw [if_neg h1, if_neg h2]
      rw [if_neg (by simp [htl])]
      rfl
  · intro hb hm hpos
    have hchb : current_highest_bid_of a = hb.amount := by
      unfold current_highest_bid_of
      rw [hm]
    rw [hchb]
    have h1 : ¬ (hb.amount = 0 ∧ amount < a.starting_price) := by
      intro hcon
      exact absurd hcon.1 (ne_of_gt hpos)
    constructor
    · intro hlt
      have htl : is_bid_too_low amount hb.amount a (effective_min_bid a)
          = true := by
        unfold is_bid_too_low
        rw [if_neg h1, if_pos ⟨hpos, hlt⟩]
      rw [if_pos htl]
    · intro heq
      have h2 : ¬ (0 < hb.amount ∧ amount < hb.amount + effective_min_bid a) := by
        intro hcon
        rw [heq] at hcon
        exact absurd hcon.2 (lt_irrefl _)
      have htl : is_bid_too_low amount hb.amount a (effective_min_bid a)
          = false := by
        unfold is_bid_too_low
        rw [if_neg h1, if_neg h2]
      rw [if_neg (by simp [htl])]
      rfl

/-- Witness for C1 amended: against starting price 10 and increment 2 with
no prior bid, a first bid of 9 is rejected with minimum required bid 10,
and a first bid of exactly 10 is accepted. -/
theorem spec_C1_amended_witness :
    (bid_on_auction base_auction 7 9 0).2 =
      .rejectedTooLow 9 10 10 2 0
    ∧ ((bid_on_auction base_auction 7 10 0).2).isAccepted = true := by
  constructor
  · have h := ((spec_C1_amended base_auction 7 9 0 (by decide) (by decide)
      (by decide)).1 rfl).1 (by decide)
    rw [h]
    norm_num [calculate_min_required_bid, effective_min_bid, base_auction,
      max_def]
  · exact ((spec_C1_amended base_auction 7 10 0 (by decide) (by decide)
      (by decide)).1 rfl).2 rfl

/-- A live auction whose `instant_buy_price` is set but equal to 0.00
(the field's own constraint is `ge=0.00`, so zero is storable). -/
def zero_instant_auction : Auction :=
  { base_auction with instant_buy_price := some 0 }

/-- Counterexample to claim C3 as stated: with `instant_buy_price` SET to
0.00 and a bid of 5 ≥ 0.00, the claim prescribes unconditional instant-buy
acceptance, but `Decimal("0")` is falsy in the branch condition
`db_auction.instant_buy_price and ...`, so the code falls through to the
too-low check and rejects the bid. -/
theorem spec_C3_counterexample :
    zero_instant_auction.instant_buy_price = some 0
    ∧ (0 : ℚ) ≤ 5
    ∧ bid_on_auction zero_instant_auction 7 5 0 =
        (zero_instant_auction, .rejectedTooLow 5 10 10 2 0) := by
  refine ⟨rfl, by norm_num, ?_⟩
  rw [bid_on_auction_normal_case zero_instant_auction 7 5 0 (by decide)
    (by decide), bid_normal_path_eq zero_instant_auction 7 5 0 (by decide)]
  have htl : is_bid_too_low 5 (current_highest_bid_of zero_instant_auction)
      zero_instant_auction (effective_min_bid zero_instant_auction) = true := by
    decide
  rw [if_pos htl]
  norm_num [calculate_min_required_bid, effective_min_bid,
    current_highest_bid_of, Auction.get_highest_bid, zero_instant_auction,
    base_auction, max_def]

/-- Claim C3 as amended: for a live, not-ended auction whose
`instant_buy_price` is set AND nonzero, any bid of at least that price is
accepted before and regardless of the too-low check, its stored amount is
clamped to exactly `instant_buy_price`, the auction's `instant_buy` flag is
set, `end_time` is rewritten to the bid's `created_at`, and the linked
product is marked sold — all in the same call. -/
theorem spec_C3_amended (a : Auction) (bidder : Nat) (amount p : ℚ)
    (now : ℤ)
    (hgate : ¬ (a.has_ended now = true ∨ a.state = State.setup))
    (hp : a.instant_buy_price = some p) (hp0 : ¬ p = 0) (hge : p ≤ amount) :
    (bid_on_auction a bidder amount now).2 =
        .acceptedInstantBuy
          { bidder_id := bidder, amount := p, created_at := now,
            auction_id := a.id }
    ∧ (bid_on_auction a bidder amount now).1.bids =
        a.bids ++ [{ bidder_id := bidder, amount := p, created_at := now,
                     auction_id := a.id }]
    ∧ (bid_on_auction a bidder amount now).1.instant_buy = true
    ∧ (bid_on_auction a bidder amount now).1.end_time = some now
    ∧ (bid_on_auction a bidder amount now).1.product.sold = true := by
  have hib : instant_buy_triggered a amount = true := by
    unfold instant_buy_triggered
    rw [hp]
    simp [hp0, hge]
  unfold bid_on_auction
  rw [if_neg hgate, if_pos hib]
  dsimp only
  rw [hp]
  exact ⟨rfl, rfl, rfl, rfl, rfl⟩

/-- A live auction with instant-buy threshold 100. -/
def instant_auction : Auction :=
  { base_auction with instant_buy_price := some 100 }

/-- Witness for C3 amended: a bid of 150 against threshold 100 is accepted
with stored amount clamped to 100, `instant_buy` set, `end_time` rewritten
to the bid's timestamp and the product marked sold. -/
theorem spec_C3_amended_witness :
    (bid_on_auction instant_auction 7 150 0).2 =
        .acceptedInstantBuy
          { bidder_id := 7, amount := 100, created_at := 0, auction_id := 1 }
    ∧ (bid_on_auction instant_auction 7 150 0).1.bids =
        instant_auction.bids ++
          [{ bidder_id := 7, amount := 100, created_at := 0, auction_id := 1 }]
    ∧ (bid_on_auction instant_auction 7 150 0).1.instant_buy = true
    ∧ (bid_on_auction instant_auction 7 150 0).1.end_time = some 0
    ∧ (bid_on_auction instant_auction 7 150 0).1.product.sold = true :=
  spec_C3_amended instant_auction 7 150 100 0 (by decide) rfl (by decide)
    (by decide)

/-- A live auction holding two tied bids of 10 (created at times 1 and 2)
whose instant-buy threshold is also 10. -/
def tie_bids_auction : Auction :=
  { base_auction with
      instant_buy_price := some 10,
      bids := [{ bidder_id := 2, amount := 10, created_at := 1,
                 auction_id := 1 },
               { bidder_id := 3, amount := 10, created_at := 2,
                 auction_id := 1 }] }

/-- The tied-bid auction with null timestamps: still admitted by the
cannot-bid gate (`has_ended` is false with `end_time = None`) but rejected
by the `AuctionLive` validation. -/
def tie_bids_no_times_auction : Auction :=
  { base_auction with
      start_time := none,
      end_time := none,
      bids := [{ bidder_id := 2, amount := 10, created_at := 1,
                 auction_id := 1 },
               { bidder_id := 3, amount := 10, created_at := 2,
                 auction_id := 1 }] }

/-- Counterexample to claim C6 as stated, one conjunct per divergence.
(i) On a live, not-ended auction with two tied bids of 10,
`get_highest_bid` does return the earlier bid, but a later bid equal to
the current highest amount is NOT rejected as too low — it meets the
instant-buy threshold 10 and is accepted by the instant-buy branch, which
runs before the too-low check.
(ii) On a live auction with tied bids but null timestamps (admitted by the
gate), a later equal bid is not rejected as too low either: line 369's
`AuctionLive.model_validate` raises `ValidationError` before the too-low
check. -/
theorem spec_C6_counterexample :
    (tie_bids_auction.get_highest_bid =
      some { bidder_id := 2, amount := 10, created_at := 1, auction_id := 1 }
     ∧ tie_bids_auction.has_ended 0 = false
     ∧ ¬ tie_bids_auction.state = State.setup
     ∧ ((bid_on_auction tie_bids_auction 4 10 0).2).isAccepted = true)
    ∧ (tie_bids_no_times_auction.get_highest_bid =
      some { bidder_id := 2, amount := 10, created_at := 1, auction_id := 1 }
     ∧ tie_bids_no_times_auction.has_ended 0 = false
     ∧ ¬ tie_bids_no_times_auction.state = State.setup
     ∧ bid_on_auction tie_bids_no_times_auction 4 10 0 =
         (tie_bids_no_times_auction, .validationError none none)) := by
  decide

/-- Claim C6 as amended: with the bid list in nondecreasing `created_at`
order, the bid `get_highest_bid` returns is the earliest-created among all
bids sharing the maximum amount (and dominates every bid) — and, on a
live, not-ended auction that passes the `AuctionLive` validation, a later
bid equal to the current highest amount, provided it does not meet the
instant-buy threshold, is rejected as too low. -/
theorem spec_C6_amended (a : Auction) (now : ℤ) (bidder : Nat)
    (hsort : a.bids.Pairwise fun x y => x.created_at ≤ y.created_at) :
    (∀ m, a.get_highest_bid = some m →
        m ∈ a.bids ∧ (∀ c ∈ a.bids, c.amount ≤ m.amount) ∧
        (∀ c ∈ a.bids, c.amount = m.amount → m.created_at ≤ c.created_at))
    ∧ (∀ m, a.get_highest_bid = some m → 0 < m.amount →
        ¬ (a.has_ended now = true ∨ a.state = State.setup) →
        ¬ (a.start_time = none ∨ a.end_time = none) →
        instant_buy_triggered a m.amount = false →
        0 < effective_min_bid a →
        (bid_on_auction a bidder m.amount now).2 =
          .rejectedTooLow m.amount
            (calculate_min_required_bid a m.amount (effective_min_bid a))
            a.starting_price (effective_min_bid a) m.amount) := by
  constructor
  · intro m hm
    unfold Auction.get_highest_bid at hm
    cases hbids : a.bids with
    | nil =>
      rw [hbids] at hm
      exact absurd hm (by simp)
    | cons b bs =>
      rw [hbids] at hm hsort
      have hm2 : some (py_max_by_amount b bs) = some m := hm
      injection hm2 with hm3
      subst hm3
      exact ⟨py_max_mem bs b, py_max_max bs b, py_max_earliest bs b hsort⟩
  · intro m hm hpos hgate hv hib hmb
    rw [bid_on_auction_normal_case a bidder m.amount now hgate hib,
      bid_normal_path_eq a bidder m.amount now hv]
    have hchb : current_highest_bid_of a = m.amount := by
      unfold current_highest_bid_of
      rw [hm]
    rw [hchb]
    have h1 : ¬ (m.amount = 0 ∧ m.amount < a.starting_price) := by
      intro hcon
      exact absurd hcon.1 (ne_of_gt hpos)
    have htl : is_bid_too_low m.amount m.amount a (effective_min_bid a)
        = true := by
      unfold is_bid_too_low
      rw [if_neg h1, if_pos ⟨hpos, lt_add_of_pos_right _ hmb⟩]
    rw [if_pos htl]

/-- The tied-bid auction without an instant-buy threshold. -/
def tie_bids_plain : Auction :=
  { base_auction with
      bids := [{ bidder_id := 2, amount := 10, created_at := 1,
                 auction_id := 1 },
               { bidder_id := 3, amount := 10, created_at := 2,
                 auction_id := 1 }] }

/-- Witness for C6 amended: of the two tied bids of 10 the earlier one
stands, and a new bid of exactly 10 is rejected with minimum required bid
12. -/
theorem spec_C6_amended_witness :
    tie_bids_plain.get_highest_bid =
      some { bidder_id := 2, amount := 10, created_at := 1, auction_id := 1 }
    ∧ (bid_on_auction tie_bids_plain 4 10 0).2 =
        .rejectedTooLow 10 12 10 2 10 := by
  have hsort : tie_bids_plain.bids.Pairwise
      (fun x y => x.created_at ≤ y.created_at) := by decide
  have h := (spec_C6_amended tie_bids_plain 0 4 hsort).2
      { bidder_id := 2, amount := 10, created_at := 1, auction_id := 1 }
      (by decide) (by decide) (by decide) (by decide) (by decide) (by decide)
  refine ⟨by decide, ?_⟩
  rw [h]
  norm_num [calculate_min_required_bid, effective_min_bid, tie_bids_plain,
    base_auction, max_def]

/-- The `.auction` component of `finish_auction` does not depend on the
email branches: it is the committed settlement record. -/
theorem finish_auction_auction (emailOk : Nat → Nat → Bool) (a : Auction)
    (now : ℤ) :
    (finish_auction emailOk a now).auction =
      { (match a.get_highest_bid with
         | some hb =>
             if 0 < hb.amount then
               { a with
                   buyer_id := some hb.bidder_id,
                   sold_price := some hb.amount,
                   updated_at := some now,
                   product := { a.product with sold := true } }
             else a
         | none => a) with state := State.finished } := by
  unfold finish_auction
  dsimp only
  split
  · rfl
  · split
    · rfl
    · split
      · rfl
      · rfl

/-- Claim C4: settling a live auction with a highest bid of positive amount
assigns that bid's bidder as buyer, records its amount as `sold_price`,
marks the linked product sold, stamps `updated_at = now` and sets
`state = finished`; settling one with no bid still finishes it with
`buyer_id` and `sold_price` left null and notifies only the owner. -/
theorem spec_C4_settlement (emailOk : Nat → Nat → Bool) (a : Auction)
    (now : ℤ) :
    (∀ hb, a.get_highest_bid = some hb → 0 < hb.amount →
       (finish_auction emailOk a now).auction.buyer_id = some hb.bidder_id
       ∧ (finish_auction emailOk a now).auction.sold_price = some hb.amount
       ∧ (finish_auction emailOk a now).auction.product.sold = true
       ∧ (finish_auction emailOk a now).auction.state = State.finished
       ∧ (finish_auction emailOk a now).auction.updated_at = some now)
    ∧ (a.get_highest_bid = none → a.buyer_id = none → a.sold_price = none →
       (finish_auction (fun _ _ => true) a now).auction.state = State.finished
       ∧ (finish_auction (fun _ _ => true) a now).auction.buyer_id = none
       ∧ (finish_auction (fun _ _ => true) a now).auction.sold_price = none
       ∧ (finish_auction (fun _ _ => true) a now).notifs =
           [{ auction_id := a.id, recipient_id := a.owner_id }]) := by
  constructor
  · intro hb hm hpos
    refine ⟨?_, ?_, ?_, ?_, ?_⟩ <;>
      first
        | (rw [finish_auction_auction, hm]
           dsimp only
           rw [if_pos hpos])
        | rw [finish_auction_auction, hm]
  · intro hm hbuy hsold
    refine ⟨finish_auction_finishes _ a now, ?_, ?_, ?_⟩
    · rw [finish_auction_auction, hm]
      exact hbuy
    · rw [finish_auction_auction, hm]
      exact hsold
    · unfold finish_auction
      dsimp only
      rw [hbuy]
      simp

/-- A live auction carrying a single bid of 12 by user 2. -/
def bid_auction : Auction :=
  { base_auction with
      bids := [{ bidder_id := 2, amount := 12, created_at := 1,
                 auction_id := 1 }] }

/-- Witness for C4 at two concrete auctions: one with a winning bid of 12
and `base_auction` with no bids at all. -/
theorem spec_C4_settlement_witness :
    ((finish_auction (fun _ _ => true) bid_auction 5).auction.buyer_id = some 2
     ∧ (finish_auction (fun _ _ => true) bid_auction 5).auction.sold_price =
         some 12
     ∧ (finish_auction (fun _ _ => true) bid_auction 5).auction.product.sold =
         true
     ∧ (finish_auction (fun _ _ => true) bid_auction 5).auction.state =
         State.finished
     ∧ (finish_auction (fun _ _ => true) bid_auction 5).auction.updated_at =
         some 5)
    ∧ ((finish_auction (fun _ _ => true) base_auction 5).auction.state =
         State.finished
     ∧ (finish_auction (fun _ _ => true) base_auction 5).auction.buyer_id =
         none
     ∧ (finish_auction (fun _ _ => true) base_auction 5).auction.sold_price =
         none
     ∧ (finish_auction (fun _ _ => true) base_auction 5).notifs =
         [{ auction_id := 1, recipient_id := 1 }]) := by
  constructor
  · exact (spec_C4_settlement (fun _ _ => true) bid_auction 5).1
      { bidder_id := 2, amount := 12, created_at := 1, auction_id := 1 }
      (by decide) (by decide)
  · exact (spec_C4_settlement (fun _ _ => true) base_auction 5).2 rfl rfl rfl
